import Mathlib

/-!
Verification of the nullability core of the crubit pointer-nullability analyzer.

The development shallowly embeds the type structure and algorithms of
`nullability/type_nullability.cc` and `nullability/pointer_nullability_analysis.cc`
(and, for one refinement claim, the pre-unified walker in
`nullability_verification/pointer_nullability_analysis.cc`).

Modelling conventions:
* clang `QualType` values are modelled by the inductive `Ty` below; sugar nodes
  (`AttributedType`, alias and class `TemplateSpecializationType`,
  `SubstTemplateTypeParmType`) are explicit constructors, canonical nodes
  (`PointerType`, `FunctionProtoType`, `RecordType`, references, arrays,
  builtins) are the rest.  `CanTy` is the separate grammar of canonical types
  used as input of the rebuilder.
* Template arguments are modelled as `Option Ty`: `some t` is a type argument,
  `none` is a non-type argument (the walkers skip those).  Template argument
  packs are not modelled; no claim exercises them and every code path touching
  a pack index bails out.
* Declarations are identified by a `Nat` id (`getAssociatedDecl` comparisons
  are id comparisons).
* The template-context chain (`TemplateContext`, `SaveAndRestore`) used to
  resugar substituted parameters from enclosing sugar is not modelled: in the
  modelled fragment a `SubstTemplateTypeParmType` either hits the substitution
  hook or falls through to its canonical replacement type, which is the
  behaviour of the source when no context matches.
* `CHECK` failures (fatal aborts) are modelled as `none` results of
  `Option`-valued functions.
-/

namespace Crubit

/-- Sum type of the three nullability annotations (clang `NullabilityKind`). -/
inductive NullabilityKind where
  | NonNull
  | Nullable
  | Unspecified
deriving DecidableEq, Repr

/-- Ordered sequence of nullability annotations, one per pointer position. -/
abbrev TypeNullability := List NullabilityKind

/-- Types as walked by the nullability walker, sugar included.

Constructors, in terms of clang type nodes:
* `ptr`: `PointerType`.
* `attributed`: `AttributedType` carrying a nullability attribute; its
  argument is the modified type.  (Attributed types with non-nullability
  attributes are not modelled.)
* `aliasTST`: an alias-form `TemplateSpecializationType`; `ank` is the
  alias-annotation recognized by `getAliasNullability` (if any), `written` the
  written template arguments, `underlying` the aliased (desugared) type.
* `tst`: a class-form `TemplateSpecializationType` for a class template
  specialization with declaration id `declId`, enclosing declaration context
  `declCtx`, canonical argument list `canonArgs` (the specialization decl's
  args) and written sugared arguments `written`.
* `record`: a canonical `RecordType`; `specArgs = some args` iff the record
  decl is a `ClassTemplateSpecializationDecl` with canonical args `args`.
* `fnProto`: `FunctionProtoType` with return and parameter types.
* `ref`: `LValueReferenceType` / `RValueReferenceType` (walked identically).
* `arr`: `ArrayType`.
* `subst`: `SubstTemplateTypeParmType` with associated decl id `assoc`,
  parameter index, optional pack index, whether the replaced parameter lives
  in a partial specialization, and the canonical replacement type.
* `nullptrTy`: the builtin `nullptr_t` type.
* `prim`: any other non-sugar type with no pointer positions. -/
inductive Ty where
  | ptr (pointee : Ty)
  | attributed (nk : NullabilityKind) (modified : Ty)
  | aliasTST (ank : Option NullabilityKind) (written : List (Option Ty)) (underlying : Ty)
  | tst (declId : Nat) (declCtx : Option Ty) (canonArgs : List (Option Ty))
      (written : List (Option Ty))
  | record (declId : Nat) (declCtx : Option Ty) (specArgs : Option (List (Option Ty)))
  | fnProto (ret : Ty) (params : List Ty)
  | ref (pointee : Ty)
  | arr (elem : Ty)
  | subst (assoc : Nat) (index : Nat) (packIndex : Option Nat) (inPartialSpec : Bool)
      (underlying : Ty)
  | nullptrTy
  | prim

/-- Canonical types: the sugar-free grammar accepted by the rebuilder.
Template arguments are `Option CanTy` (`none` for non-type arguments). -/
inductive CanTy where
  | ptr (pointee : CanTy)
  | fnProto (ret : CanTy) (params : List CanTy)
  | record (declId : Nat) (declCtx : Option CanTy) (specArgs : Option (List (Option CanTy)))
  | ref (pointee : CanTy)
  | arr (elem : CanTy)
  | nullptrTy
  | prim

mutual

/-- Embeds a canonical type into the walker's type grammar. -/
def canToTy : CanTy → Ty
  | .ptr t => .ptr (canToTy t)
  | .fnProto r ps => .fnProto (canToTy r) (canToTyList ps)
  | .record d dc sa => .record d (canToTyCtx dc) (canToTySpecArgs sa)
  | .ref t => .ref (canToTy t)
  | .arr t => .arr (canToTy t)
  | .nullptrTy => .nullptrTy
  | .prim => .prim

/-- Embeds a list of canonical types. -/
def canToTyList : List CanTy → List Ty
  | [] => []
  | t :: r => canToTy t :: canToTyList r

/-- Embeds an optional enclosing declaration context. -/
def canToTyCtx : Option CanTy → Option Ty
  | none => none
  | some t => some (canToTy t)

/-- Embeds a canonical template argument list. -/
def canToTyArgs : List (Option CanTy) → List (Option Ty)
  | [] => []
  | none :: r => none :: canToTyArgs r
  | some t :: r => some (canToTy t) :: canToTyArgs r

/-- Embeds the optional canonical argument list of a specialization. -/
def canToTySpecArgs : Option (List (Option CanTy)) → Option (List (Option Ty))
  | none => none
  | some l => some (canToTyArgs l)

end

/-- Pending-annotation update of `NullabilityWalker::sawNullability`: if two
annotations are seen without an intervening pointer, the outer one wins. -/
def sawNullability (pending : Option NullabilityKind) (nk : NullabilityKind) :
    Option NullabilityKind :=
  match pending with
  | some p => some p
  | none => some nk

/-- Fields of a `SubstTemplateTypeParmType` consulted by substitution hooks. -/
structure SubstTTP where
  assoc : Nat
  index : Nat
  packIndex : Option Nat
  inPartialSpec : Bool

/-- Signature of the optional substitution hook of the walker. -/
abbrev SubstHook := SubstTTP → Option TypeNullability

/-- Hook used when no substitution hook is supplied. -/
def noHook : SubstHook := fun _ => none

/-- Dropping a prefix of a list does not increase its `sizeOf`. -/
theorem sizeOf_listDrop_le {α : Type} [SizeOf α] (n : Nat) (l : List α) :
    sizeOf (l.drop n) ≤ sizeOf l := by
  induction l generalizing n with
  | nil => cases n <;> simp
  | cons a t ih =>
    cases n with
    | zero => exact Nat.le_refl _
    | succ m =>
      have h := ih m
      simp only [List.drop_succ_cons, List.cons.sizeOf_spec]
      omega

mutual

/-- Shallow embedding of `NullabilityWalker::Visit` specialized to
`getNullabilityAnnotationsFromType`s walker: the walk returns the emitted
annotations together with the final pending-annotation slot, or `none` when
the `CHECK` in `VisitAttributedType` fires (`BrokenTypeSugar`). -/
def walk (hk : SubstHook) (p : Option NullabilityKind) :
    Ty → Option (TypeNullability × Option NullabilityKind)
  | .ptr t =>
      (walk hk none t).map (fun r => ((p.getD .Unspecified) :: r.1, r.2))
  | .attributed nk m =>
      (walk hk (sawNullability p nk) m).bind
        (fun r => if r.2.isSome then none else some (r.1, none))
  | .aliasTST ank _w u =>
      walk hk (match ank with | some nk => sawNullability p nk | none => p) u
  | .tst _ dc ca w =>
      (walkCtx hk dc).bind (fun r1 =>
        (walkArgs hk r1.2 w).bind (fun r2 =>
          (walkArgs hk r2.2 (ca.drop w.length)).map (fun r3 =>
            (r1.1 ++ (r2.1 ++ r3.1), r3.2))))
  | .record _ dc none => walkCtx hk dc
  | .record _ dc (some args) =>
      (walkCtx hk dc).bind (fun r1 =>
        (walkArgs hk r1.2 args).map (fun r2 => (r1.1 ++ r2.1, r2.2)))
  | .fnProto ret params =>
      (walk hk none ret).bind (fun r1 =>
        (walkList hk r1.2 params).map (fun r2 => (r1.1 ++ r2.1, r2.2)))
  | .ref t => walk hk none t
  | .arr t => walk hk none t
  | .subst a i pk ip u =>
      (hk ⟨a, i, pk, ip⟩).elim (walk hk p u) (fun v => some (v, p))
  | .nullptrTy => some ([], none)
  | .prim => some ([], none)
termination_by t => sizeOf t
decreasing_by
  all_goals simp_wf
  all_goals try omega
  all_goals (have h := sizeOf_listDrop_le (w.length) ca; omega)

/-- Walk of a declaration context (`Visit(const DeclContext *)`): only an
enclosing record is walked; the pending slot was already cleared by the
caller (`ignoreUnexpectedNullability`). -/
def walkCtx (hk : SubstHook) :
    Option Ty → Option (TypeNullability × Option NullabilityKind)
  | none => some ([], none)
  | some t => walk hk none t
termination_by c => sizeOf c

/-- Sequential walk of a template argument list, threading the pending slot;
non-type arguments are skipped. -/
def walkArgs (hk : SubstHook) (p : Option NullabilityKind) :
    List (Option Ty) → Option (TypeNullability × Option NullabilityKind)
  | [] => some ([], p)
  | none :: rest => walkArgs hk p rest
  | some t :: rest =>
      (walk hk p t).bind (fun r1 =>
        (walkArgs hk r1.2 rest).map (fun r2 => (r1.1 ++ r2.1, r2.2)))
termination_by l => sizeOf l

/-- Sequential walk of a list of types (function parameters), threading the
pending slot. -/
def walkList (hk : SubstHook) (p : Option NullabilityKind) :
    List Ty → Option (TypeNullability × Option NullabilityKind)
  | [] => some ([], p)
  | t :: rest =>
      (walk hk p t).bind (fun r1 =>
        (walkList hk r1.2 rest).map (fun r2 => (r1.1 ++ r2.1, r2.2)))
termination_by l => sizeOf l

end

/-- Shallow embedding of `getNullabilityAnnotationsFromType` with an optional
substitution hook; `none` models a fatal `BrokenTypeSugar` abort. -/
def getNullabilityAnnotationsFromType (hk : SubstHook := noHook) (t : Ty) :
    Option TypeNullability :=
  (walk hk none t).map Prod.fst

mutual

/-- Shallow embedding of the `countPointers` instantiation of the walker: the
same traversal as `walk` with a counting `report` callback and no
`VisitSubstTemplateTypeParmType` override. -/
def cwalk (p : Option NullabilityKind) : Ty → Option (Nat × Option NullabilityKind)
  | .ptr t =>
      (cwalk none t).map (fun r => (r.1 + 1, r.2))
  | .attributed nk m =>
      (cwalk (sawNullability p nk) m).bind
        (fun r => if r.2.isSome then none else some (r.1, none))
  | .aliasTST ank _w u =>
      cwalk (match ank with | some nk => sawNullability p nk | none => p) u
  | .tst _ dc ca w =>
      (cwalkCtx dc).bind (fun r1 =>
        (cwalkArgs r1.2 w).bind (fun r2 =>
          (cwalkArgs r2.2 (ca.drop w.length)).map (fun r3 =>
            (r1.1 + (r2.1 + r3.1), r3.2))))
  | .record _ dc none => cwalkCtx dc
  | .record _ dc (some args) =>
      (cwalkCtx dc).bind (fun r1 =>
        (cwalkArgs r1.2 args).map (fun r2 => (r1.1 + r2.1, r2.2)))
  | .fnProto ret params =>
      (cwalk none ret).bind (fun r1 =>
        (cwalkList r1.2 params).map (fun r2 => (r1.1 + r2.1, r2.2)))
  | .ref t => cwalk none t
  | .arr t => cwalk none t
  | .subst _ _ _ _ u => cwalk p u
  | .nullptrTy => some (0, none)
  | .prim => some (0, none)
termination_by t => sizeOf t
decreasing_by
  all_goals simp_wf
  all_goals try omega
  all_goals (have h := sizeOf_listDrop_le (w.length) ca; omega)

/-- Counting walk of a declaration context. -/
def cwalkCtx : Option Ty → Option (Nat × Option NullabilityKind)
  | none => some (0, none)
  | some t => cwalk none t
termination_by c => sizeOf c

/-- Counting walk of a template argument list. -/
def cwalkArgs (p : Option NullabilityKind) :
    List (Option Ty) → Option (Nat × Option NullabilityKind)
  | [] => some (0, p)
  | none :: rest => cwalkArgs p rest
  | some t :: rest =>
      (cwalk p t).bind (fun r1 =>
        (cwalkArgs r1.2 rest).map (fun r2 => (r1.1 + r2.1, r2.2)))
termination_by l => sizeOf l

/-- Counting walk of a list of types. -/
def cwalkList (p : Option NullabilityKind) : List Ty → Option (Nat × Option NullabilityKind)
  | [] => some (0, p)
  | t :: rest =>
      (cwalk p t).bind (fun r1 =>
        (cwalkList r1.2 rest).map (fun r2 => (r1.1 + r2.1, r2.2)))
termination_by l => sizeOf l

end

mutual

/-- Shallow embedding of `countPointersInType` restricted to canonical types:
the structural pointer count, one per pointer position in traversal order. -/
def countPointersInCanType : CanTy → Nat
  | .ptr t => countPointersInCanType t + 1
  | .fnProto r ps => countPointersInCanType r + countPointersInCanList ps
  | .record _ dc sa => countPointersInCanCtx dc + countPointersInCanSpecArgs sa
  | .ref t => countPointersInCanType t
  | .arr t => countPointersInCanType t
  | .nullptrTy => 0
  | .prim => 0

/-- Pointer count of a list of canonical types. -/
def countPointersInCanList : List CanTy → Nat
  | [] => 0
  | t :: r => countPointersInCanType t + countPointersInCanList r

/-- Pointer count of an optional enclosing declaration context. -/
def countPointersInCanCtx : Option CanTy → Nat
  | none => 0
  | some t => countPointersInCanType t

/-- Pointer count of a canonical template argument list. -/
def countPointersInCanArgs : List (Option CanTy) → Nat
  | [] => 0
  | none :: r => countPointersInCanArgs r
  | some t :: r => countPointersInCanType t + countPointersInCanArgs r

/-- Pointer count of the optional argument list of a specialization. -/
def countPointersInCanSpecArgs : Option (List (Option CanTy)) → Nat
  | none => 0
  | some l => countPointersInCanArgs l

end

/-- Total variant of the no-hook annotation walk (justified by
`walk_noHook_total` below: the no-hook walk never aborts). -/
def typeAnnotations (t : Ty) : TypeNullability :=
  ((walk noHook none t).map Prod.fst).getD []

/-- Shallow embedding of `countPointersInType(QualType)`: the counting walker
run over the type (total by `walk_noHook_total` and `cwalk_eq_walk`). -/
def countPointersInType (t : Ty) : Nat :=
  ((cwalk none t).map Prod.fst).getD 0

/-- Pointer count of a declaration context,
`countPointersInType(const DeclContext *)`. -/
def countPointersInDeclContext (c : Option Ty) : Nat :=
  ((cwalkCtx c).map Prod.fst).getD 0

/-- Pointer count of a template argument,
`countPointersInType(TemplateArgument)`: type arguments recurse, other
arguments count zero. -/
def countPointersInTypeArg : Option Ty → Nat
  | none => 0
  | some t => countPointersInType t

mutual

/-- Shallow embedding of the `Rebuilder` type visitor: given a canonical type
and the vector of annotations still to be consumed, produce the rebuilt
sugared type and the unconsumed tail.  `none` models the `CHECK` failure on a
too-short vector at a pointer. -/
def rebuildVisit : CanTy → TypeNullability → Option (Ty × TypeNullability)
  | .ptr _, [] => none
  | .ptr t, nk :: rest =>
      (rebuildVisit t rest).map (fun r =>
        (if nk = .Unspecified then Ty.ptr r.1 else Ty.attributed nk (Ty.ptr r.1), r.2))
  | .record d dc none, v => some (Ty.record d (canToTyCtx dc) none, v)
  | .record d dc (some args), v =>
      (rebuildArgs args v).map (fun r =>
        (Ty.tst d (canToTyCtx dc) (canToTyArgs args) r.1, r.2))
  | .fnProto ret params, v =>
      (rebuildVisit ret v).bind (fun r1 =>
        (rebuildList params r1.2).map (fun r2 => (Ty.fnProto r1.1 r2.1, r2.2)))
  | .ref t, v => (rebuildVisit t v).map (fun r => (Ty.ref r.1, r.2))
  | .arr t, v => (rebuildVisit t v).map (fun r => (Ty.arr r.1, r.2))
  | .nullptrTy, v => some (.nullptrTy, v)
  | .prim, v => some (.prim, v)
termination_by t _ => sizeOf t

/-- Rebuild of a parameter list, threading the annotation vector. -/
def rebuildList : List CanTy → TypeNullability → Option (List Ty × TypeNullability)
  | [], v => some ([], v)
  | t :: rest, v =>
      (rebuildVisit t v).bind (fun r1 =>
        (rebuildList rest r1.2).map (fun r2 => (r1.1 :: r2.1, r2.2)))
termination_by l _ => sizeOf l

/-- Rebuild of a template argument list (`Rebuilder::Visit(TemplateArgument)`):
type arguments are transformed, other arguments returned unchanged. -/
def rebuildArgs :
    List (Option CanTy) → TypeNullability → Option (List (Option Ty) × TypeNullability)
  | [], v => some ([], v)
  | none :: rest, v =>
      (rebuildArgs rest v).map (fun r => (none :: r.1, r.2))
  | some t :: rest, v =>
      (rebuildVisit t v).bind (fun r1 =>
        (rebuildArgs rest r1.2).map (fun r2 => (some r1.1 :: r2.1, r2.2)))
termination_by l _ => sizeOf l

end

/-- Shallow embedding of `rebuildWithNullability`: run the rebuilder on the
canonical type and `CHECK(V.done())`, i.e. fail unless the vector was fully
consumed. -/
def rebuildWithNullability (T : CanTy) (Nullability : TypeNullability) : Option Ty :=
  (rebuildVisit T Nullability).bind (fun r => if r.2.isEmpty then some r.1 else none)

mutual

/-- Canonical types on which the rebuilder consumes the whole vector: every
record type contributes no pointer positions through its enclosing
declaration context (the rebuilder transforms template arguments but never
visits declaration contexts). -/
def rebuildable : CanTy → Bool
  | .ptr t => rebuildable t
  | .fnProto r ps => rebuildable r && rebuildableList ps
  | .record _ dc none => countPointersInCanCtx dc == 0
  | .record _ dc (some args) => (countPointersInCanCtx dc == 0) && rebuildableArgs args
  | .ref t => rebuildable t
  | .arr t => rebuildable t
  | .nullptrTy => true
  | .prim => true

/-- Rebuildability of a list of canonical types. -/
def rebuildableList : List CanTy → Bool
  | [] => true
  | t :: r => rebuildable t && rebuildableList r

/-- Rebuildability of a canonical template argument list. -/
def rebuildableArgs : List (Option CanTy) → Bool
  | [] => true
  | none :: r => rebuildableArgs r
  | some t :: r => rebuildable t && rebuildableArgs r

end

/-- Shallow embedding of `QualType::isNullPtrType`: whether the canonical
type is the builtin `nullptr_t` type (sugar is stripped). -/
def isNullPtrType : Ty → Bool
  | .nullptrTy => true
  | .attributed _ m => isNullPtrType m
  | .aliasTST _ _ u => isNullPtrType u
  | .subst _ _ _ _ u => isNullPtrType u
  | _ => false

/-- Shallow embedding of the `CK_NullToPointer` case of
`transferNonFlowSensitiveCastExpr`: read the annotation vector from the
destination type, then force the topmost annotation to `Nullable` unless the
destination type is `nullptr_t`.  (`Nullability.front() = ...` is modelled as
`List.set 0`; in the source the guarded branch only runs when the destination
is a pointer type, so the vector is nonempty there.) -/
def nullToPointerNullability (destTy : Ty) : TypeNullability :=
  let Nullability := typeAnnotations destTy
  if isNullPtrType destTy then Nullability else Nullability.set 0 .Nullable

/-- What the claim under scrutiny says the `CK_NullToPointer` case produces:
an all-`Unspecified` vector sized for the destination type, with the topmost
annotation forced to `Nullable` unless the destination is `nullptr_t`. -/
def nullToPointerNullabilityClaimed (destTy : Ty) : TypeNullability :=
  let Nullability := List.replicate (countPointersInType destTy) NullabilityKind.Unspecified
  if isNullPtrType destTy then Nullability else Nullability.set 0 .Nullable

/-- Record-specialization data extracted by
`BaseType->getAs<RecordType>()` plus
`dyn_cast<ClassTemplateSpecializationDecl>(RT->getDecl())`: the decl id, its
declaration context, and its canonical template argument list. -/
structure Specialization where
  declId : Nat
  declCtx : Option Ty
  args : List (Option Ty)

/-- Strips sugar off a type to find the underlying record and returns its
specialization data when the record decl is a
`ClassTemplateSpecializationDecl`. -/
def getRecordSpec : Ty → Option Specialization
  | .attributed _ m => getRecordSpec m
  | .aliasTST _ _ u => getRecordSpec u
  | .subst _ _ _ _ u => getRecordSpec u
  | .tst d dc ca _ => some ⟨d, dc, ca⟩
  | .record d dc (some args) => some ⟨d, dc, args⟩
  | _ => none

/-- The substitution hook of
`substituteNullabilityAnnotationsInClassTemplate`: for the substituted
parameter with index `i` of the base specialization, return the slice of the
base nullability vector starting after the pointers of the enclosing
declaration context and of the preceding arguments, of the length of argument
`i`s pointer count.  (`TemplateArgs[ArgIndex]` is an unchecked index in the
source; out-of-range access is modelled as a non-type argument.) -/
def classTemplateSubstHook (BaseNullabilityAnnotations : TypeNullability)
    (BaseType : Ty) : SubstHook := fun ST =>
  match getRecordSpec BaseType with
  | none => none
  | some Specialization =>
    if Specialization.declId != ST.assoc then none
    else if ST.inPartialSpec then none
    else if ST.packIndex.isSome then none
    else
      let PointerCount := countPointersInDeclContext Specialization.declCtx +
        ((Specialization.args.take ST.index).map countPointersInTypeArg).sum
      let SliceSize := countPointersInTypeArg ((Specialization.args.get? ST.index).getD none)
      some ((BaseNullabilityAnnotations.drop PointerCount).take SliceSize)

/-- Shallow embedding of `substituteNullabilityAnnotationsInClassTemplate`. -/
def substituteNullabilityAnnotationsInClassTemplate (T : Ty)
    (BaseNullabilityAnnotations : TypeNullability) (BaseType : Ty) :
    Option TypeNullability :=
  getNullabilityAnnotationsFromType
    (classTemplateSubstHook BaseNullabilityAnnotations BaseType) T

/-- Expressions, carrying the fields the transfer functions consult: a stable
identity, the expression type, and, for bound-member placeholders, the member
declaration type. -/
structure MExpr where
  id : Nat
  exprTy : Ty
  boundMemberTy : Option Ty := none

/-- Shallow embedding of `exprType`: the expression type, except that a
bound-member placeholder uses the member declaration type. -/
def exprType (e : MExpr) : Ty := e.boundMemberTy.getD e.exprTy

/-- Shallow embedding of `countPointersInType(const Expr *)`. -/
def countPointersInExpr (e : MExpr) : Nat := countPointersInType (exprType e)

/-- Shallow embedding of `unspecifiedNullability`: an all-`Unspecified`
vector of the expression's pointer count. -/
def unspecifiedNullability (e : MExpr) : TypeNullability :=
  List.replicate (countPointersInExpr e) .Unspecified

/-- ExprNullability map of the lattice, keyed by expression identity. -/
abbrev Lattice := List (MExpr × TypeNullability)

/-- Lookup in the ExprNullability map. -/
def lookupExprNullability (L : Lattice) (id : Nat) : Option TypeNullability :=
  (L.find? (fun ev => ev.1.id == id)).map Prod.snd

/-- Modelled from the spec: the lattice's insert-if-absent primitive
(`insertExprNullabilityIfAbsent` lives in `pointer_nullability_lattice.h`,
which is not under `src/`); earlier results stick. -/
def insertExprNullabilityIfAbsent (L : Lattice) (e : MExpr) (v : TypeNullability) : Lattice :=
  match lookupExprNullability L e.id with
  | some _ => L
  | none => (e, v) :: L

/-- Shallow embedding of `computeNullability`: wrap the computed vector with
the length self-check, replacing a wrong-length vector by an
all-`Unspecified` vector of the expected size, and insert if absent. -/
def computeNullability (e : MExpr) (L : Lattice) (computed : TypeNullability) : Lattice :=
  insertExprNullabilityIfAbsent L e
    (if computed.length = countPointersInExpr e then computed else unspecifiedNullability e)

/-- Shallow embedding of `getNullabilityForChild`: look the child up,
inserting an all-`Unspecified` vector if it is missing. -/
def getNullabilityForChild (e : MExpr) (L : Lattice) : TypeNullability × Lattice :=
  match lookupExprNullability L e.id with
  | some v => (v, L)
  | none => (unspecifiedNullability e, (e, unspecifiedNullability e) :: L)

/-- One lattice mutation of the non-flow-sensitive transfer: either a
`computeNullability` insertion with an arbitrarily computed vector, or a
`getNullabilityForChild` lookup-insertion. -/
inductive TStep where
  | compute (e : MExpr) (v : TypeNullability)
  | child (e : MExpr)

/-- Runs one transfer step on the lattice. -/
def runStep (L : Lattice) : TStep → Lattice
  | .compute e v => computeNullability e L v
  | .child e => (getNullabilityForChild e L).2

/-- Runs a sequence of transfer steps on the lattice. -/
def runSteps (L : Lattice) : List TStep → Lattice
  | [] => L
  | s :: rest => runSteps (runStep L s) rest

/-- Shallow embedding of `transferNonFlowSensitiveDeclRefExpr`. -/
def transferNonFlowSensitiveDeclRefExpr (DRE : MExpr) (L : Lattice) : Lattice :=
  computeNullability DRE L (typeAnnotations DRE.exprTy)

/-- Shallow embedding of `transferNonFlowSensitiveMemberExpr`: if absent,
look up the base nullability and walk the member type with the
class-template substitution hook.  `none` models a fatal walker abort. -/
def transferNonFlowSensitiveMemberExpr (ME Base : MExpr) (L : Lattice) : Option Lattice :=
  match lookupExprNullability L ME.id with
  | some _ => some L
  | none =>
    let bl := getNullabilityForChild Base L
    (substituteNullabilityAnnotationsInClassTemplate (exprType ME) bl.1 Base.exprTy).map
      (fun v => computeNullability ME bl.2 v)

/-- Shallow embedding of `transferNonFlowSensitiveMemberCallExpr`: the
callee's nullability truncated to the call expression's pointer count. -/
def transferNonFlowSensitiveMemberCallExpr (MCE Callee : MExpr) (L : Lattice) : Lattice :=
  match lookupExprNullability L MCE.id with
  | some _ => L
  | none =>
    let cn := getNullabilityForChild Callee L
    computeNullability MCE cn.2 (cn.1.take (countPointersInExpr MCE))

/-- Shallow embedding of the `CK_NullToPointer` case of the cast transfer at
the lattice level. -/
def transferNonFlowSensitiveCastNullToPointer (CE : MExpr) (L : Lattice) : Lattice :=
  computeNullability CE L (nullToPointerNullability CE.exprTy)

/-- Boolean formulas over atomic boolean values of the arena
(`BoolValue` trees built by `makeNot`, `makeAnd`, `makeOr`, `makeImplication`,
`makeIff`). -/
inductive BoolVal where
  | atom (n : Nat)
  | not (b : BoolVal)
  | and (a b : BoolVal)
  | or (a b : BoolVal)
  | implies (a b : BoolVal)
  | iff (a b : BoolVal)
deriving DecidableEq

/-- Evaluation of a boolean formula under an assignment of the atoms. -/
def evalBool (v : Nat → Bool) : BoolVal → Bool
  | .atom n => v n
  | .not b => !(evalBool v b)
  | .and a b => evalBool v a && evalBool v b
  | .or a b => evalBool v a || evalBool v b
  | .implies a b => !(evalBool v a) || evalBool v b
  | .iff a b => evalBool v a == evalBool v b

/-- Dataflow environment fragment the transfers touch: the flow condition (a
conjunction of formulas) and the arena's fresh-atom counter. -/
structure Env where
  flowCondition : List BoolVal
  nextAtom : Nat

/-- Shallow embedding of `Environment::addToFlowCondition`. -/
def addToFlowCondition (env : Env) (b : BoolVal) : Env :=
  { env with flowCondition := b :: env.flowCondition }

/-- Shallow embedding of `makeAtomicBoolValue`: a fresh atom from the arena. -/
def makeAtomicBoolValue (env : Env) : BoolVal × Env :=
  (.atom env.nextAtom, { env with nextAtom := env.nextAtom + 1 })

/-- Whether an assignment satisfies the flow condition. -/
def satisfiesFlowCondition (v : Nat → Bool) (env : Env) : Bool :=
  env.flowCondition.all (evalBool v)

/-- Null state of a pointer value: the `is_known` and `is_null` boolean
handles. -/
structure PointerNullState where
  isKnown : BoolVal
  isNull : BoolVal

/-- Declaration-level symbolic nullability: the `nonnull` and `nullable`
boolean handles of `PointerTypeNullability`. -/
structure PointerTypeNullability where
  Nonnull : BoolVal
  Nullable : BoolVal

/-- Modelled from the spec: `init_pointer_null_state(value, env, known, null)`
(defined in `pointer_nullability.cc`, which is not under `src/`).  Components
not supplied by the caller are fresh atomic booleans from the arena. -/
def initPointerNullState (known nullB : Option BoolVal) (env : Env) :
    PointerNullState × Env :=
  let kr := match known with
    | some b => (b, env)
    | none => makeAtomicBoolValue env
  let nr := match nullB with
    | some b => (b, kr.2)
    | none => makeAtomicBoolValue kr.2
  (⟨kr.1, nr.1⟩, nr.2)

/-- Shallow embedding of `assignNullabilityVariable` on first call for a
declaration: two fresh atomic booleans are allocated and stored as the
declaration's `PointerTypeNullability`. -/
def assignNullabilityVariable (env : Env) : PointerTypeNullability × Env :=
  let r1 := makeAtomicBoolValue env
  let r2 := makeAtomicBoolValue r1.2
  (⟨r1.1, r2.1⟩, r2.2)

/-- Shallow embedding of the override branch of `transferFlowSensitivePointer`:
initialize the pointer value's null state with
`is_known = nonnull ∨ nullable` (and a fresh `is_null`), then add
`nonnull ⇒ ¬is_null` to the flow condition. -/
def transferFlowSensitivePointerOverride (ov : PointerTypeNullability) (env : Env) :
    PointerNullState × Env :=
  let r := initPointerNullState (some (.or ov.Nonnull ov.Nullable)) none env
  (r.1, addToFlowCondition r.2 (.implies ov.Nonnull (.not r.1.isNull)))

/-- Shallow embedding of `transferFlowSensitiveNullCheckComparison` for the
case where both operands have pointer values with null state `LHS`, `RHS`:
three implications are added to the flow condition. -/
def transferFlowSensitiveNullCheckComparison (isEQ : Bool) (PointerComparison : BoolVal)
    (LHS RHS : PointerNullState) (env : Env) : Env :=
  let PointerEQ := if isEQ then PointerComparison else BoolVal.not PointerComparison
  let PointerNE := if isEQ then BoolVal.not PointerComparison else PointerComparison
  let LHSNull := LHS.isNull
  let RHSNull := RHS.isNull
  let LHSNotNull := BoolVal.not LHSNull
  let RHSNotNull := BoolVal.not RHSNull
  let env1 := addToFlowCondition env (.implies (.and LHSNull RHSNull) PointerEQ)
  let env2 := addToFlowCondition env1 (.implies (.and LHSNull RHSNotNull) PointerNE)
  addToFlowCondition env2 (.implies (.and LHSNotNull RHSNull) PointerNE)

/-- Shallow embedding of `MT->getAs<PointerType>()` followed by
`getPointeeType()`: strips sugar to find a pointer type and returns its
pointee. -/
def asPointeeType : Ty → Option Ty
  | .ptr t => some t
  | .attributed _ m => asPointeeType m
  | .aliasTST _ _ u => asPointeeType u
  | .subst _ _ _ _ u => asPointeeType u
  | _ => none

/-- Stripping sugar to a pointee only reaches subterms. -/
theorem asPointeeType_sizeOf :
    (m : Ty) → ∀ t, asPointeeType m = some t → sizeOf t < sizeOf m
  | .ptr u => by
      intro t h
      simp only [asPointeeType, Option.some_inj] at h
      subst h
      simp only [Ty.ptr.sizeOf_spec]
      omega
  | .attributed nk m => by
      intro t h
      simp only [asPointeeType] at h
      have := asPointeeType_sizeOf m t h
      simp only [Ty.attributed.sizeOf_spec]
      omega
  | .aliasTST ank w u => by
      intro t h
      simp only [asPointeeType] at h
      have := asPointeeType_sizeOf u t h
      simp only [Ty.aliasTST.sizeOf_spec]
      omega
  | .subst a i pk ip u => by
      intro t h
      simp only [asPointeeType] at h
      have := asPointeeType_sizeOf u t h
      simp only [Ty.subst.sizeOf_spec]
      omega
  | .tst _ _ _ _ => by intro t h; simp [asPointeeType] at h
  | .record _ _ _ => by intro t h; simp [asPointeeType] at h
  | .fnProto _ _ => by intro t h; simp [asPointeeType] at h
  | .ref _ => by intro t h; simp [asPointeeType] at h
  | .arr _ => by intro t h; simp [asPointeeType] at h
  | .nullptrTy => by intro t h; simp [asPointeeType] at h
  | .prim => by intro t h; simp [asPointeeType] at h

mutual

/-- Shallow embedding of the pre-unified
`GetNullabilityAnnotationsFromTypeVisitor` of
`nullability_verification/pointer_nullability_analysis.cc`: an attributed
type pushes its annotation and, when the modified type desugars to a pointer,
continues with the pointee; a plain pointer pushes `Unspecified`; a template
specialization visits its written type arguments; every other type kind has
no handler and contributes nothing. -/
def preWalk : Ty → TypeNullability
  | .ptr t => .Unspecified :: preWalk t
  | .attributed nk m =>
      nk :: (match h : asPointeeType m with
             | some t => preWalk t
             | none => [])
  | .aliasTST _ w _ => preWalkArgs w
  | .tst _ _ _ w => preWalkArgs w
  | .record _ _ _ => []
  | .fnProto _ _ => []
  | .ref _ => []
  | .arr _ => []
  | .subst _ _ _ _ _ => []
  | .nullptrTy => []
  | .prim => []
termination_by t => sizeOf t
decreasing_by
  all_goals simp_wf
  all_goals try omega
  all_goals (have hs := asPointeeType_sizeOf m t h; omega)

/-- Written-argument traversal of the pre-unified visitor. -/
def preWalkArgs : List (Option Ty) → TypeNullability
  | [] => []
  | none :: r => preWalkArgs r
  | some t :: r => preWalk t ++ preWalkArgs r
termination_by l => sizeOf l

end

/-- Raw-pointer types with nullability attributes applied directly to pointer
types: no templates, aliases, functions, arrays, or references. -/
inductive RawPtrTy : Ty → Prop where
  | prim : RawPtrTy .prim
  | ptr {t : Ty} : RawPtrTy t → RawPtrTy (.ptr t)
  | aptr {t : Ty} (nk : NullabilityKind) : RawPtrTy t → RawPtrTy (.attributed nk (.ptr t))

/-- Length invariant of the lattice: every mapped expression's vector has one
entry per pointer position in the expression's type. -/
def latticeWF (L : Lattice) : Prop :=
  ∀ ev ∈ L, (ev.2 : TypeNullability).length = countPointersInExpr ev.1

/-- Empty environment over an empty arena. -/
def emptyEnv : Env := ⟨[], 0⟩

/-- Written type of the base `x` in the example
`template<class F,class S> struct P { S* _Nullable second(); };
P<int*, int* _Nonnull> x;`: a class-form template specialization type whose
canonical arguments are both `int *` and whose written arguments carry the
`_Nonnull` sugar on the second. -/
def exampleBaseTy : Ty :=
  .tst 0 none [some (.ptr .prim), some (.ptr .prim)]
    [some (.ptr .prim), some (.attributed .NonNull (.ptr .prim))]

/-- Type of the member declaration `S* _Nullable second();`: a function
prototype returning `S* _Nullable`, `S` being the substituted second template
parameter with canonical replacement `int *`. -/
def exampleMemberDeclTy : Ty :=
  .fnProto (.attributed .Nullable (.ptr (.subst 0 1 none false (.ptr .prim)))) []

/-- Type of the member call expression `x.second()`. -/
def exampleCallTy : Ty :=
  .attributed .Nullable (.ptr (.subst 0 1 none false (.ptr .prim)))

/-- The declaration reference `x`. -/
def exampleDRE : MExpr := ⟨0, exampleBaseTy, none⟩

/-- The member expression `x.second`, a bound-member placeholder whose
nullability is computed from the member declaration type. -/
def exampleME : MExpr := ⟨1, .prim, some exampleMemberDeclTy⟩

/-- The member call expression `x.second()`. -/
def exampleMCE : MExpr := ⟨2, exampleCallTy, none⟩

/-- Symbolic variables `(N, L)` assigned to the parameter `p` of the example
`int *target(int *p){ int *q = p; return q; }`: the first call of
`assignNullabilityVariable` allocates the two fresh atoms. -/
def exampleOverride : PointerTypeNullability := (assignNullabilityVariable emptyEnv).1

/-- Environment after allocating the override variables. -/
def exampleOverrideEnv : Env := (assignNullabilityVariable emptyEnv).2

/-- Null state of the pointer value of `p` (and, by framework copy
propagation through `q` and the return, of the returned pointer) after the
flow-sensitive transfer with the declaration-level override. -/
def exampleReturnState : PointerNullState :=
  (transferFlowSensitivePointerOverride exampleOverride exampleOverrideEnv).1

/-- Environment after the flow-sensitive transfer with the override. -/
def exampleReturnEnv : Env :=
  (transferFlowSensitivePointerOverride exampleOverride exampleOverrideEnv).2

mutual

/-- Both walker instantiations are the same traversal: the counting walk is
the annotation walk with each report replaced by an increment. -/
theorem cwalk_eq_walk (p : Option NullabilityKind) :
    (t : Ty) → cwalk p t = (walk noHook p t).map (fun r => (r.1.length, r.2))
  | .ptr t => by
      have ih := cwalk_eq_walk none t
      simp only [cwalk, walk, ih]
      cases walk noHook none t <;> rfl
  | .attributed nk m => by
      have ih := cwalk_eq_walk (sawNullability p nk) m
      simp only [cwalk, walk, ih]
      cases h : walk noHook (sawNullability p nk) m with
      | none => rfl
      | some r => cases r with | mk a b => cases b <;> rfl
  | .aliasTST ank w u => by
      cases ank with
      | none =>
        simp only [cwalk, walk]
        exact cwalk_eq_walk p u
      | some nk =>
        simp only [cwalk, walk]
        exact cwalk_eq_walk (sawNullability p nk) u
  | .tst d dc ca w => by
      have ihc := cwalkCtx_eq_walkCtx dc
      simp only [cwalk, walk, ihc]
      cases hc : walkCtx noHook dc with
      | none => rfl
      | some r1 =>
        have iha := cwalkArgs_eq_walkArgs r1.2 w
        simp only [Option.some_bind, Option.map_some', iha]
        cases ha : walkArgs noHook r1.2 w with
        | none => rfl
        | some r2 =>
          have ihb := cwalkArgs_eq_walkArgs r2.2 (ca.drop w.length)
          simp only [Option.some_bind, Option.map_some', ihb]
          cases hb : walkArgs noHook r2.2 (ca.drop w.length) with
          | none => rfl
          | some r3 => simp [List.length_append]
  | .record d dc none => by
      simp only [cwalk, walk]
      exact cwalkCtx_eq_walkCtx dc
  | .record d dc (some args) => by
      have ihc := cwalkCtx_eq_walkCtx dc
      simp only [cwalk, walk, ihc]
      cases hc : walkCtx noHook dc with
      | none => rfl
      | some r1 =>
        have iha := cwalkArgs_eq_walkArgs r1.2 args
        simp only [Option.some_bind, Option.map_some', iha]
        cases ha : walkArgs noHook r1.2 args with
        | none => rfl
        | some r2 => simp [List.length_append]
  | .fnProto ret params => by
      have ihr := cwalk_eq_walk none ret
      simp only [cwalk, walk, ihr]
      cases hr : walk noHook none ret with
      | none => rfl
      | some r1 =>
        have ihp := cwalkList_eq_walkList r1.2 params
        simp only [Option.some_bind, Option.map_some', ihp]
        cases hp : walkList noHook r1.2 params with
        | none => rfl
        | some r2 => simp [List.length_append]
  | .ref t => by
      simp only [cwalk, walk]
      exact cwalk_eq_walk none t
  | .arr t => by
      simp only [cwalk, walk]
      exact cwalk_eq_walk none t
  | .subst a i pk ip u => by
      simp only [cwalk, walk, noHook]
      exact cwalk_eq_walk p u
  | .nullptrTy => by simp only [cwalk, walk]; rfl
  | .prim => by simp only [cwalk, walk]; rfl
termination_by t => sizeOf t
decreasing_by
  all_goals simp_wf
  all_goals try omega
  all_goals (have h := sizeOf_listDrop_le (w.length) ca; omega)

/-- Counting and annotation walks agree on declaration contexts. -/
theorem cwalkCtx_eq_walkCtx :
    (c : Option Ty) → cwalkCtx c = (walkCtx noHook c).map (fun r => (r.1.length, r.2))
  | none => by simp only [cwalkCtx, walkCtx]; rfl
  | some t => by
      simp only [cwalkCtx, walkCtx]
      exact cwalk_eq_walk none t
termination_by c => sizeOf c

/-- Counting and annotation walks agree on template argument lists. -/
theorem cwalkArgs_eq_walkArgs (p : Option NullabilityKind) :
    (l : List (Option Ty)) →
      cwalkArgs p l = (walkArgs noHook p l).map (fun r => (r.1.length, r.2))
  | [] => by simp only [cwalkArgs, walkArgs]; rfl
  | none :: rest => by
      simp only [cwalkArgs, walkArgs]
      exact cwalkArgs_eq_walkArgs p rest
  | some t :: rest => by
      have ih1 := cwalk_eq_walk p t
      simp only [cwalkArgs, walkArgs, ih1]
      cases h1 : walk noHook p t with
      | none => rfl
      | some r1 =>
        have ih2 := cwalkArgs_eq_walkArgs r1.2 rest
        simp only [Option.some_bind, Option.map_some', ih2]
        cases h2 : walkArgs noHook r1.2 rest with
        | none => rfl
        | some r2 => simp [List.length_append]
termination_by l => sizeOf l

/-- Counting and annotation walks agree on type lists. -/
theorem cwalkList_eq_walkList (p : Option NullabilityKind) :
    (l : List Ty) → cwalkList p l = (walkList noHook p l).map (fun r => (r.1.length, r.2))
  | [] => by simp only [cwalkList, walkList]; rfl
  | t :: rest => by
      have ih1 := cwalk_eq_walk p t
      simp only [cwalkList, walkList, ih1]
      cases h1 : walk noHook p t with
      | none => rfl
      | some r1 =>
        have ih2 := cwalkList_eq_walkList r1.2 rest
        simp only [Option.some_bind, Option.map_some', ih2]
        cases h2 : walkList noHook r1.2 rest with
        | none => rfl
        | some r2 => simp [List.length_append]
termination_by l => sizeOf l

end

mutual

/-- With no substitution hook the walk never aborts and every full visit
leaves the pending-annotation slot empty: each sub-walk either consumes the
pending annotation at a pointer, or drops it at a non-pointer non-sugar
type. -/
theorem walk_noHook_total (p : Option NullabilityKind) :
    (t : Ty) → ∃ out, walk noHook p t = some (out, none)
  | .ptr t => by
      obtain ⟨o, h⟩ := walk_noHook_total none t
      exact ⟨(p.getD .Unspecified) :: o, by simp [walk, h]⟩
  | .attributed nk m => by
      obtain ⟨o, h⟩ := walk_noHook_total (sawNullability p nk) m
      exact ⟨o, by simp [walk, h]⟩
  | .aliasTST ank w u => by
      cases ank with
      | none =>
        obtain ⟨o, h⟩ := walk_noHook_total p u
        exact ⟨o, by simp [walk, h]⟩
      | some nk =>
        obtain ⟨o, h⟩ := walk_noHook_total (sawNullability p nk) u
        exact ⟨o, by simp [walk, h]⟩
  | .tst d dc ca w => by
      obtain ⟨o1, h1⟩ := walkCtx_noHook_total dc
      obtain ⟨o2, h2⟩ := walkArgs_noHook_total w
      obtain ⟨o3, h3⟩ := walkArgs_noHook_total (ca.drop w.length)
      exact ⟨o1 ++ (o2 ++ o3), by simp [walk, h1, h2, h3]⟩
  | .record d dc none => by
      obtain ⟨o1, h1⟩ := walkCtx_noHook_total dc
      exact ⟨o1, by simp [walk, h1]⟩
  | .record d dc (some args) => by
      obtain ⟨o1, h1⟩ := walkCtx_noHook_total dc
      obtain ⟨o2, h2⟩ := walkArgs_noHook_total args
      exact ⟨o1 ++ o2, by simp [walk, h1, h2]⟩
  | .fnProto ret params => by
      obtain ⟨o1, h1⟩ := walk_noHook_total none ret
      obtain ⟨o2, h2⟩ := walkList_noHook_total params
      exact ⟨o1 ++ o2, by simp [walk, h1, h2]⟩
  | .ref t => by
      obtain ⟨o, h⟩ := walk_noHook_total none t
      exact ⟨o, by simp [walk, h]⟩
  | .arr t => by
      obtain ⟨o, h⟩ := walk_noHook_total none t
      exact ⟨o, by simp [walk, h]⟩
  | .subst a i pk ip u => by
      obtain ⟨o, h⟩ := walk_noHook_total p u
      exact ⟨o, by simp [walk, noHook, h, Option.elim]⟩
  | .nullptrTy => ⟨[], by simp [walk]⟩
  | .prim => ⟨[], by simp [walk]⟩
termination_by t => sizeOf t
decreasing_by
  all_goals simp_wf
  all_goals try omega
  all_goals (have h := sizeOf_listDrop_le (w.length) ca; omega)

/-- Declaration-context walks never abort and end with an empty pending slot. -/
theorem walkCtx_noHook_total :
    (c : Option Ty) → ∃ out, walkCtx noHook c = some (out, none)
  | none => ⟨[], by simp [walkCtx]⟩
  | some t => by
      obtain ⟨o, h⟩ := walk_noHook_total none t
      exact ⟨o, by simp [walkCtx, h]⟩
termination_by c => sizeOf c

/-- Template-argument walks starting with an empty pending slot never abort
and end with an empty pending slot. -/
theorem walkArgs_noHook_total :
    (l : List (Option Ty)) → ∃ out, walkArgs noHook none l = some (out, none)
  | [] => ⟨[], by simp [walkArgs]⟩
  | none :: rest => by
      obtain ⟨o, h⟩ := walkArgs_noHook_total rest
      exact ⟨o, by simp [walkArgs, h]⟩
  | some t :: rest => by
      obtain ⟨o1, h1⟩ := walk_noHook_total none t
      obtain ⟨o2, h2⟩ := walkArgs_noHook_total rest
      exact ⟨o1 ++ o2, by simp [walkArgs, h1, h2]⟩
termination_by l => sizeOf l

/-- Type-list walks starting with an empty pending slot never abort and end
with an empty pending slot. -/
theorem walkList_noHook_total :
    (l : List Ty) → ∃ out, walkList noHook none l = some (out, none)
  | [] => ⟨[], by simp [walkList]⟩
  | t :: rest => by
      obtain ⟨o1, h1⟩ := walk_noHook_total none t
      obtain ⟨o2, h2⟩ := walkList_noHook_total rest
      exact ⟨o1 ++ o2, by simp [walkList, h1, h2]⟩
termination_by l => sizeOf l

end


mutual

/-- Walking a canonical type emits one `Unspecified` annotation per pointer
position and ends with an empty pending slot. -/
theorem walk_canToTy :
    (T : CanTy) → walk noHook none (canToTy T) =
      some (List.replicate (countPointersInCanType T) .Unspecified, none)
  | .ptr t => by
      simp only [canToTy, walk, walk_canToTy t, Option.map_some', countPointersInCanType,
        Option.getD_none]
      rw [List.replicate_succ]
  | .fnProto r ps => by
      simp only [canToTy, walk, walk_canToTy r, Option.some_bind, walkList_canToTyList ps,
        Option.map_some', countPointersInCanType]
      rw [List.replicate_add]
  | .record d dc none => by
      simp only [canToTy, canToTySpecArgs, walk, countPointersInCanType,
        countPointersInCanSpecArgs, walkCtx_canToTyCtx dc, Nat.add_zero]
  | .record d dc (some args) => by
      simp only [canToTy, canToTySpecArgs, walk, countPointersInCanType,
        countPointersInCanSpecArgs, walkCtx_canToTyCtx dc, Option.some_bind,
        walkArgs_canToTyArgs args, Option.map_some']
      rw [List.replicate_add]
  | .ref t => by
      simp only [canToTy, walk]
      exact walk_canToTy t
  | .arr t => by
      simp only [canToTy, walk]
      exact walk_canToTy t
  | .nullptrTy => by simp only [canToTy, walk, countPointersInCanType, List.replicate]
  | .prim => by simp only [canToTy, walk, countPointersInCanType, List.replicate]
termination_by T => sizeOf T

/-- Walking an embedded canonical declaration context emits `Unspecified`
annotations only. -/
theorem walkCtx_canToTyCtx :
    (c : Option CanTy) → walkCtx noHook (canToTyCtx c) =
      some (List.replicate (countPointersInCanCtx c) .Unspecified, none)
  | none => by simp only [canToTyCtx, walkCtx, countPointersInCanCtx, List.replicate]
  | some t => by
      simp only [canToTyCtx, walkCtx, countPointersInCanCtx]
      exact walk_canToTy t
termination_by c => sizeOf c

/-- Walking an embedded canonical template argument list emits `Unspecified`
annotations only. -/
theorem walkArgs_canToTyArgs :
    (l : List (Option CanTy)) → walkArgs noHook none (canToTyArgs l) =
      some (List.replicate (countPointersInCanArgs l) .Unspecified, none)
  | [] => by simp only [canToTyArgs, walkArgs, countPointersInCanArgs, List.replicate]
  | none :: rest => by
      simp only [canToTyArgs, walkArgs, countPointersInCanArgs]
      exact walkArgs_canToTyArgs rest
  | some t :: rest => by
      simp only [canToTyArgs, walkArgs, countPointersInCanArgs, walk_canToTy t,
        Option.some_bind, walkArgs_canToTyArgs rest, Option.map_some']
      rw [List.replicate_add]
termination_by l => sizeOf l

/-- Walking an embedded canonical type list emits `Unspecified` annotations
only. -/
theorem walkList_canToTyList :
    (l : List CanTy) → walkList noHook none (canToTyList l) =
      some (List.replicate (countPointersInCanList l) .Unspecified, none)
  | [] => by simp only [canToTyList, walkList, countPointersInCanList, List.replicate]
  | t :: rest => by
      simp only [canToTyList, walkList, countPointersInCanList, walk_canToTy t,
        Option.some_bind, walkList_canToTyList rest, Option.map_some']
      rw [List.replicate_add]
termination_by l => sizeOf l

end

/-- Embedding a canonical argument list preserves its length. -/
theorem canToTyArgs_length : (l : List (Option CanTy)) → (canToTyArgs l).length = l.length
  | [] => by simp [canToTyArgs]
  | none :: r => by simp [canToTyArgs, canToTyArgs_length r]
  | some t :: r => by simp [canToTyArgs, canToTyArgs_length r]

/-- The walk of a type whose canonical type is `nullptr_t` emits nothing,
clears the pending slot and never aborts, whatever the pending state. -/
theorem walk_isNullPtrType :
    (t : Ty) → ∀ p, isNullPtrType t = true → walk noHook p t = some ([], none)
  | .nullptrTy => by intro p _; simp [walk]
  | .attributed nk m => by
      intro p h
      simp only [isNullPtrType] at h
      simp [walk, walk_isNullPtrType m (sawNullability p nk) h]
  | .aliasTST ank w u => by
      intro p h
      simp only [isNullPtrType] at h
      cases ank with
      | none => simp [walk, walk_isNullPtrType u p h]
      | some nk => simp [walk, walk_isNullPtrType u (sawNullability p nk) h]
  | .subst a i pk ip u => by
      intro p h
      simp only [isNullPtrType] at h
      simp [walk, noHook, Option.elim, walk_isNullPtrType u p h]
  | .ptr t => by intro p h; simp [isNullPtrType] at h
  | .tst _ _ _ _ => by intro p h; simp [isNullPtrType] at h
  | .record _ _ _ => by intro p h; simp [isNullPtrType] at h
  | .fnProto _ _ => by intro p h; simp [isNullPtrType] at h
  | .ref _ => by intro p h; simp [isNullPtrType] at h
  | .arr _ => by intro p h; simp [isNullPtrType] at h
  | .prim => by intro p h; simp [isNullPtrType] at h
termination_by t => sizeOf t

/-- The annotation vector of a `nullptr_t`-sugared type is empty. -/
theorem typeAnnotations_isNullPtrType {t : Ty} (h : isNullPtrType t = true) :
    typeAnnotations t = [] := by
  simp [typeAnnotations, walk_isNullPtrType t none h]

mutual

/-- Round-trip of the rebuilder against the walker, on canonical types whose
record declaration contexts contribute no pointers: the rebuilder consumes
exactly the vector and the walker reads it back. -/
theorem rebuild_roundtrip : (T : CanTy) → rebuildable T = true →
    ∀ v rest, v.length = countPointersInCanType T →
    ∃ S, rebuildVisit T (v ++ rest) = some (S, rest) ∧ walk noHook none S = some (v, none)
  | .ptr t => by
      intro hr v rest hv
      simp only [rebuildable] at hr
      simp only [countPointersInCanType] at hv
      match v, hv with
      | nk :: v1, hv =>
        have hv1 : v1.length = countPointersInCanType t := by
          simp only [List.length_cons] at hv
          omega
        obtain ⟨S1, hR1, hW1⟩ := rebuild_roundtrip t hr v1 rest hv1
        by_cases hnk : nk = NullabilityKind.Unspecified
        · subst hnk
          refine ⟨Ty.ptr S1, ?_, ?_⟩
          · simp [rebuildVisit, hR1]
          · simp [walk, hW1]
        · refine ⟨Ty.attributed nk (Ty.ptr S1), ?_, ?_⟩
          · simp [rebuildVisit, hR1, hnk]
          · simp [walk, sawNullability, hW1]
  | .fnProto ret params => by
      intro hr v rest hv
      simp only [rebuildable, Bool.and_eq_true] at hr
      simp only [countPointersInCanType] at hv
      have hle : countPointersInCanType ret ≤ v.length := by omega
      have hv1 : (v.take (countPointersInCanType ret)).length = countPointersInCanType ret := by
        simp [List.length_take]
        omega
      have hv2 : (v.drop (countPointersInCanType ret)).length = countPointersInCanList params := by
        simp [List.length_drop]
        omega
      obtain ⟨S1, hR1, hW1⟩ :=
        rebuild_roundtrip ret hr.1 (v.take (countPointersInCanType ret))
          (v.drop (countPointersInCanType ret) ++ rest) hv1
      obtain ⟨Ss, hR2, hW2⟩ :=
        rebuildList_roundtrip params hr.2 (v.drop (countPointersInCanType ret)) rest hv2
      refine ⟨Ty.fnProto S1 Ss, ?_, ?_⟩
      · have hsplit : v ++ rest =
            v.take (countPointersInCanType ret) ++
              (v.drop (countPointersInCanType ret) ++ rest) := by
          rw [← List.append_assoc, List.take_append_drop]
        rw [rebuildVisit, hsplit, hR1]
        simp [hR2]
      · rw [walk, hW1]
        simp [hW2, List.take_append_drop]
  | .record d dc none => by
      intro hr v rest hv
      simp only [rebuildable, beq_iff_eq] at hr
      simp only [countPointersInCanType, countPointersInCanSpecArgs, hr] at hv
      have hv0 : v = [] := List.eq_nil_of_length_eq_zero (by omega)
      subst hv0
      refine ⟨Ty.record d (canToTyCtx dc) none, by simp [rebuildVisit], ?_⟩
      have hctx := walkCtx_canToTyCtx dc
      rw [hr] at hctx
      simp [walk, hctx]
  | .record d dc (some args) => by
      intro hr v rest hv
      simp only [rebuildable, Bool.and_eq_true, beq_iff_eq] at hr
      simp only [countPointersInCanType, countPointersInCanSpecArgs, hr.1] at hv
      obtain ⟨Ss, hR, hW, hLen⟩ := rebuildArgs_roundtrip args hr.2 v rest (by omega)
      refine ⟨Ty.tst d (canToTyCtx dc) (canToTyArgs args) Ss, ?_, ?_⟩
      · simp [rebuildVisit, hR]
      · have hctx := walkCtx_canToTyCtx dc
        rw [hr.1] at hctx
        have hdrop : (canToTyArgs args).drop Ss.length = [] := by
          rw [hLen, ← canToTyArgs_length args]
          exact List.drop_length _
        rw [walk, hctx]
        simp [hW, hdrop, walkArgs]
  | .ref t => by
      intro hr v rest hv
      simp only [rebuildable] at hr
      simp only [countPointersInCanType] at hv
      obtain ⟨S1, hR1, hW1⟩ := rebuild_roundtrip t hr v rest hv
      exact ⟨Ty.ref S1, by simp [rebuildVisit, hR1], by simp [walk, hW1]⟩
  | .arr t => by
      intro hr v rest hv
      simp only [rebuildable] at hr
      simp only [countPointersInCanType] at hv
      obtain ⟨S1, hR1, hW1⟩ := rebuild_roundtrip t hr v rest hv
      exact ⟨Ty.arr S1, by simp [rebuildVisit, hR1], by simp [walk, hW1]⟩
  | .nullptrTy => by
      intro hr v rest hv
      simp only [countPointersInCanType] at hv
      have hv0 : v = [] := List.eq_nil_of_length_eq_zero hv
      subst hv0
      exact ⟨Ty.nullptrTy, by simp [rebuildVisit], by simp [walk]⟩
  | .prim => by
      intro hr v rest hv
      simp only [countPointersInCanType] at hv
      have hv0 : v = [] := List.eq_nil_of_length_eq_zero hv
      subst hv0
      exact ⟨Ty.prim, by simp [rebuildVisit], by simp [walk]⟩
termination_by T => sizeOf T

/-- Round-trip of the rebuilder on a list of canonical parameter types. -/
theorem rebuildList_roundtrip : (l : List CanTy) → rebuildableList l = true →
    ∀ v rest, v.length = countPointersInCanList l →
    ∃ Ss, rebuildList l (v ++ rest) = some (Ss, rest) ∧
      walkList noHook none Ss = some (v, none)
  | [] => by
      intro hr v rest hv
      simp only [countPointersInCanList] at hv
      have hv0 : v = [] := List.eq_nil_of_length_eq_zero hv
      subst hv0
      exact ⟨[], by simp [rebuildList], by simp [walkList]⟩
  | t :: r => by
      intro hr v rest hv
      simp only [rebuildableList, Bool.and_eq_true] at hr
      simp only [countPointersInCanList] at hv
      have hle : countPointersInCanType t ≤ v.length := by omega
      have hv1 : (v.take (countPointersInCanType t)).length = countPointersInCanType t := by
        simp [List.length_take]
        omega
      have hv2 : (v.drop (countPointersInCanType t)).length = countPointersInCanList r := by
        simp [List.length_drop]
        omega
      obtain ⟨S1, hR1, hW1⟩ :=
        rebuild_roundtrip t hr.1 (v.take (countPointersInCanType t))
          (v.drop (countPointersInCanType t) ++ rest) hv1
      obtain ⟨Ss, hR2, hW2⟩ :=
        rebuildList_roundtrip r hr.2 (v.drop (countPointersInCanType t)) rest hv2
      refine ⟨S1 :: Ss, ?_, ?_⟩
      · have hsplit : v ++ rest =
            v.take (countPointersInCanType t) ++
              (v.drop (countPointersInCanType t) ++ rest) := by
          rw [← List.append_assoc, List.take_append_drop]
        rw [rebuildList, hsplit, hR1]
        simp [hR2]
      · rw [walkList, hW1]
        simp [hW2, List.take_append_drop]
termination_by l => sizeOf l

/-- Round-trip of the rebuilder on a canonical template argument list; also
records that rebuilding preserves the argument count. -/
theorem rebuildArgs_roundtrip : (l : List (Option CanTy)) → rebuildableArgs l = true →
    ∀ v rest, v.length = countPointersInCanArgs l →
    ∃ Ss, rebuildArgs l (v ++ rest) = some (Ss, rest) ∧
      walkArgs noHook none Ss = some (v, none) ∧ Ss.length = l.length
  | [] => by
      intro hr v rest hv
      simp only [countPointersInCanArgs] at hv
      have hv0 : v = [] := List.eq_nil_of_length_eq_zero hv
      subst hv0
      exact ⟨[], by simp [rebuildArgs], by simp [walkArgs], rfl⟩
  | none :: r => by
      intro hr v rest hv
      simp only [rebuildableArgs] at hr
      simp only [countPointersInCanArgs] at hv
      obtain ⟨Ss, hR, hW, hLen⟩ := rebuildArgs_roundtrip r hr v rest hv
      refine ⟨none :: Ss, ?_, ?_, by simp [hLen]⟩
      · simp [rebuildArgs, hR]
      · simp [walkArgs, hW]
  | some t :: r => by
      intro hr v rest hv
      simp only [rebuildableArgs, Bool.and_eq_true] at hr
      simp only [countPointersInCanArgs] at hv
      have hle : countPointersInCanType t ≤ v.length := by omega
      have hv1 : (v.take (countPointersInCanType t)).length = countPointersInCanType t := by
        simp [List.length_take]
        omega
      have hv2 : (v.drop (countPointersInCanType t)).length = countPointersInCanArgs r := by
        simp [List.length_drop]
        omega
      obtain ⟨S1, hR1, hW1⟩ :=
        rebuild_roundtrip t hr.1 (v.take (countPointersInCanType t))
          (v.drop (countPointersInCanType t) ++ rest) hv1
      obtain ⟨Ss, hR2, hW2, hLen⟩ :=
        rebuildArgs_roundtrip r hr.2 (v.drop (countPointersInCanType t)) rest hv2
      refine ⟨some S1 :: Ss, ?_, ?_, by simp [hLen]⟩
      · have hsplit : v ++ rest =
            v.take (countPointersInCanType t) ++
              (v.drop (countPointersInCanType t) ++ rest) := by
          rw [← List.append_assoc, List.take_append_drop]
        rw [rebuildArgs, hsplit, hR1]
        simp [hR2]
      · rw [walkArgs, hW1]
        simp [hW2, List.take_append_drop]
termination_by l => sizeOf l

end

/-- Inserting a correct-length vector preserves the lattice invariant. -/
theorem insertExprNullabilityIfAbsent_WF {L : Lattice} (h : latticeWF L) {e : MExpr}
    {v : TypeNullability} (hv : v.length = countPointersInExpr e) :
    latticeWF (insertExprNullabilityIfAbsent L e v) := by
  unfold insertExprNullabilityIfAbsent
  cases lookupExprNullability L e.id with
  | some w => exact h
  | none =>
    intro ev hev
    cases hev with
    | head => exact hv
    | tail _ hmem => exact h ev hmem

/-- The wrapper `computeNullability` preserves the lattice invariant whatever vector the
transfer rule computed. -/
theorem computeNullability_WF {L : Lattice} (h : latticeWF L) (e : MExpr)
    (v : TypeNullability) : latticeWF (computeNullability e L v) := by
  unfold computeNullability
  by_cases hl : v.length = countPointersInExpr e
  · simp only [hl, if_pos rfl]
    exact insertExprNullabilityIfAbsent_WF h hl
  · rw [if_neg hl]
    exact insertExprNullabilityIfAbsent_WF h (by simp [unspecifiedNullability])

/-- The lookup `getNullabilityForChild` preserves the lattice invariant. -/
theorem getNullabilityForChild_WF {L : Lattice} (h : latticeWF L) (e : MExpr) :
    latticeWF (getNullabilityForChild e L).2 := by
  unfold getNullabilityForChild
  cases lookupExprNullability L e.id with
  | some w => exact h
  | none =>
    intro ev hev
    cases hev with
    | head => simp [unspecifiedNullability]
    | tail _ hmem => exact h ev hmem

/-- Every transfer step preserves the lattice invariant. -/
theorem runStep_WF {L : Lattice} (h : latticeWF L) (st : TStep) : latticeWF (runStep L st) := by
  cases st with
  | compute e v => exact computeNullability_WF h e v
  | child e => exact getNullabilityForChild_WF h e

/-- Any sequence of transfer steps preserves the lattice invariant. -/
theorem runSteps_WF : (steps : List TStep) → ∀ L, latticeWF L → latticeWF (runSteps L steps)
  | [] => fun _ h => h
  | st :: rest => fun L h => runSteps_WF rest (runStep L st) (runStep_WF h st)

/-- A freshly inserted entry is found by lookup. -/
theorem lookupExprNullability_cons (e : MExpr) (v : TypeNullability) (L : Lattice) :
    lookupExprNullability ((e, v) :: L) e.id = some v := by
  simp [lookupExprNullability, List.find?]

/-- Claim C3: after any sequence of non-flow-sensitive transfer steps starting
from the empty lattice, every mapped expression's vector length equals the
expression's pointer count; and when a transfer rule computes a vector of the
wrong length for an unmapped expression, the stored vector is the
all-`Unspecified` vector of the correct length. -/
theorem claim_C3_expr_nullability_length :
    (∀ steps : List TStep, latticeWF (runSteps [] steps)) ∧
    (∀ (e : MExpr) (L : Lattice) (v : TypeNullability),
      lookupExprNullability L e.id = none → v.length ≠ countPointersInExpr e →
      lookupExprNullability (computeNullability e L v) e.id =
        some (unspecifiedNullability e)) := by
  constructor
  · intro steps
    exact runSteps_WF steps [] (by intro ev hev; cases hev)
  · intro e L v habs hlen
    unfold computeNullability insertExprNullabilityIfAbsent
    rw [if_neg hlen, habs]
    exact lookupExprNullability_cons e _ L

/-- Witness for claim C3 at a concrete expression and step list. -/
theorem claim_C3_expr_nullability_length_witness :
    latticeWF (runSteps [] [TStep.compute ⟨0, Ty.ptr Ty.prim, none⟩ []]) ∧
    lookupExprNullability
      (computeNullability ⟨0, Ty.ptr Ty.prim, none⟩ [] []) 0 =
      some (unspecifiedNullability ⟨0, Ty.ptr Ty.prim, none⟩) := by
  constructor
  · exact claim_C3_expr_nullability_length.1 [TStep.compute ⟨0, Ty.ptr Ty.prim, none⟩ []]
  · exact claim_C3_expr_nullability_length.2 ⟨0, Ty.ptr Ty.prim, none⟩ [] []
      (by simp [lookupExprNullability])
      (by simp [countPointersInExpr, countPointersInType, exprType, cwalk])

/-- Claim C1 as stated is false: for a null-to-pointer cast to destination
type `int *_Nonnull *`, the transfer keeps the inner `Nonnull` annotation
read from the destination type, where the claim predicts an all-`Unspecified`
vector with only the topmost annotation forced to `Nullable`. -/
theorem claim_C1_counterexample :
    nullToPointerNullability (Ty.ptr (Ty.attributed .NonNull (Ty.ptr Ty.prim))) =
      [NullabilityKind.Nullable, NullabilityKind.NonNull] ∧
    nullToPointerNullabilityClaimed (Ty.ptr (Ty.attributed .NonNull (Ty.ptr Ty.prim))) =
      [NullabilityKind.Nullable, NullabilityKind.Unspecified] ∧
    nullToPointerNullability (Ty.ptr (Ty.attributed .NonNull (Ty.ptr Ty.prim))) ≠
      nullToPointerNullabilityClaimed (Ty.ptr (Ty.attributed .NonNull (Ty.ptr Ty.prim))) := by
  refine ⟨?_, ?_, ?_⟩
  · simp [nullToPointerNullability, typeAnnotations, walk, sawNullability, isNullPtrType,
      List.set]
  · simp [nullToPointerNullabilityClaimed, countPointersInType, cwalk, sawNullability,
      isNullPtrType, List.set, List.replicate]
  · simp [nullToPointerNullability, nullToPointerNullabilityClaimed, typeAnnotations,
      countPointersInType, walk, cwalk, sawNullability, isNullPtrType, List.set,
      List.replicate]

/-- Claim C1, amended: the null-to-pointer transfer reads the annotation
vector from the destination type (not an all-`Unspecified` vector) and forces
the topmost annotation to `Nullable`, unless the destination is the
null-pointer literal type, in which case the vector is empty and nothing is
forced. -/
theorem claim_C1_null_to_pointer (t : Ty) :
    nullToPointerNullability t =
      if isNullPtrType t then [] else (typeAnnotations t).set 0 .Nullable := by
  unfold nullToPointerNullability
  by_cases h : isNullPtrType t
  · simp [h, typeAnnotations_isNullPtrType h]
  · simp [h]

/-- Claim C2 as stated is false: for the canonical type of a non-template
member class `B` of a specialization `A<int *>` (one pointer position,
contributed by the enclosing declaration context), the rebuilder consumes no
annotation and aborts, so no type is produced, let alone one that walks back
to the vector. -/
theorem claim_C2_counterexample :
    ([NullabilityKind.NonNull] : TypeNullability).length =
      countPointersInCanType
        (CanTy.record 0 (some (CanTy.record 1 none (some [some (CanTy.ptr CanTy.prim)]))) none) ∧
    rebuildWithNullability
      (CanTy.record 0 (some (CanTy.record 1 none (some [some (CanTy.ptr CanTy.prim)]))) none)
      [NullabilityKind.NonNull] = none ∧
    ¬ ∃ S, rebuildWithNullability
        (CanTy.record 0 (some (CanTy.record 1 none (some [some (CanTy.ptr CanTy.prim)]))) none)
        [NullabilityKind.NonNull] = some S ∧
        getNullabilityAnnotationsFromType noHook S = some [NullabilityKind.NonNull] := by
  refine ⟨?_, ?_, ?_⟩
  · simp [countPointersInCanType, countPointersInCanCtx, countPointersInCanSpecArgs,
      countPointersInCanArgs]
  · simp [rebuildWithNullability, rebuildVisit]
  · rintro ⟨S, hS, -⟩
    rw [show rebuildWithNullability
        (CanTy.record 0 (some (CanTy.record 1 none (some [some (CanTy.ptr CanTy.prim)]))) none)
        [NullabilityKind.NonNull] = none by simp [rebuildWithNullability, rebuildVisit]] at hS
    exact Option.noConfusion hS

/-- Claim C2, amended: the round-trip holds for every canonical type in which
no record contributes pointer positions through its enclosing declaration
context (the `rebuildable` predicate), which is exactly what the
counterexample forces: the rebuilder never visits declaration contexts. -/
theorem claim_C2_roundtrip (T : CanTy) (hT : rebuildable T = true)
    (v : TypeNullability) (hv : v.length = countPointersInCanType T) :
    ∃ S, rebuildWithNullability T v = some S ∧
      getNullabilityAnnotationsFromType noHook S = some v := by
  obtain ⟨S, hR, hW⟩ := rebuild_roundtrip T hT v [] hv
  rw [List.append_nil] at hR
  refine ⟨S, ?_, ?_⟩
  · simp [rebuildWithNullability, hR, List.isEmpty]
  · simp [getNullabilityAnnotationsFromType, hW]

/-- Witness for the amended claim C2 at `int * _Nonnull`. -/
theorem claim_C2_roundtrip_witness :
    ∃ S, rebuildWithNullability (CanTy.ptr CanTy.prim) [NullabilityKind.NonNull] = some S ∧
      getNullabilityAnnotationsFromType noHook S = some [NullabilityKind.NonNull] :=
  claim_C2_roundtrip (CanTy.ptr CanTy.prim) (by simp [rebuildable])
    [NullabilityKind.NonNull] (by simp [countPointersInCanType])

/-- Claim C7: if two nullability annotations are seen without an intervening
pointer position, the outer (first-seen) one is the annotation emitted at the
next pointer and the inner one is discarded: walking a doubly-attributed type
equals walking the type with only the outer attribute, and over a pointer the
outer annotation is the one emitted. -/
theorem claim_C7_outer_annotation_wins (nk1 nk2 : NullabilityKind) (s : Ty) :
    walk noHook none (.attributed nk1 (.attributed nk2 s)) =
      walk noHook none (.attributed nk1 s) ∧
    ∀ t : Ty, getNullabilityAnnotationsFromType noHook
        (.attributed nk1 (.attributed nk2 (.ptr t))) =
      (getNullabilityAnnotationsFromType noHook t).map (fun v => nk1 :: v) := by
  constructor
  · simp only [walk, sawNullability]
    cases h : walk noHook (some nk1) s with
    | none => rfl
    | some r =>
      cases hr : r.2 with
      | some q => simp [hr]
      | none => simp [hr]
  · intro t
    obtain ⟨o, ho⟩ := walk_noHook_total none t
    simp [getNullabilityAnnotationsFromType, walk, sawNullability, ho]

/-- Claim C8: with no substitution hook, the pending-annotation slot is empty
after every completed sub-walk and the `BrokenTypeSugar` assertion in
`VisitAttributedType` never fires: every walk returns successfully with an
empty pending slot, whatever the initial pending state. -/
theorem claim_C8_pending_consumed (t : Ty) (p : Option NullabilityKind) :
    ∃ out, walk noHook p t = some (out, none) :=
  walk_noHook_total p t

/-- Claim C9: the annotation collector and the pointer counter are instances
of the same structural walker, so the vector returned by the hook-free
`getNullabilityAnnotationsFromType` has length `countPointersInType`. -/
theorem claim_C9_length_eq_count (t : Ty) :
    countPointersInType t = (typeAnnotations t).length ∧
    cwalk none t = (walk noHook none t).map (fun r => (r.1.length, r.2)) := by
  refine ⟨?_, cwalk_eq_walk none t⟩
  obtain ⟨o, ho⟩ := walk_noHook_total none t
  simp [countPointersInType, typeAnnotations, cwalk_eq_walk none t, ho]

/-- On raw-pointer types with attributes applied directly to pointers, the
pre-unified walker agrees with the unified walk (which also ends with an
empty pending slot). -/
theorem rawPtr_walk {t : Ty} (h : RawPtrTy t) :
    walk noHook none t = some (preWalk t, none) := by
  induction h with
  | prim => simp [walk, preWalk]
  | ptr ht ih => simp [walk, preWalk, ih]
  | aptr nk ht ih =>
    rename_i u
    simp [walk, preWalk, sawNullability, asPointeeType, ih]

/-- Claim C10: on every type built solely from raw pointers with nullability
attributes applied directly to pointer types, the pre-unified walker of
`nullability_verification` and the unified walker of `nullability` produce
the same nullability vector. -/
theorem claim_C10_pre_unified_agrees {t : Ty} (h : RawPtrTy t) :
    getNullabilityAnnotationsFromType noHook t = some (preWalk t) := by
  simp [getNullabilityAnnotationsFromType, rawPtr_walk h]

/-- Witness for claim C10 at `int * _Nullable *`. -/
theorem claim_C10_pre_unified_agrees_witness :
    getNullabilityAnnotationsFromType noHook
      (Ty.ptr (Ty.attributed .Nullable (Ty.ptr Ty.prim))) =
      some (preWalk (Ty.ptr (Ty.attributed .Nullable (Ty.ptr Ty.prim)))) :=
  claim_C10_pre_unified_agrees
    (RawPtrTy.ptr (RawPtrTy.aptr NullabilityKind.Nullable RawPtrTy.prim))

/-- Claim C4: the member-access substitution hook maps the substituted
parameter with index `i` of the base's class-template specialization to the
slice of the base nullability vector that starts after the pointers of the
enclosing declaration context and of the preceding arguments and has the
length of argument `i`'s pointer count; consequently, in the example
`template<class F,class S> struct P { S* _Nullable second(); };
P<int*, int* _Nonnull> x;`, the member call `x.second()` gets static
nullability `[Nullable, Nonnull]`. -/
theorem claim_C4_member_substitution :
    (∀ (bn : TypeNullability) (bt : Ty) (sp : Specialization) (i : Nat),
      getRecordSpec bt = some sp →
      classTemplateSubstHook bn bt ⟨sp.declId, i, none, false⟩ =
        some ((bn.drop (countPointersInDeclContext sp.declCtx +
            ((sp.args.take i).map countPointersInTypeArg).sum)).take
          (countPointersInTypeArg ((sp.args.get? i).getD none)))) ∧
    (∃ L, transferNonFlowSensitiveMemberExpr exampleME exampleDRE
        (transferNonFlowSensitiveDeclRefExpr exampleDRE []) = some L ∧
      lookupExprNullability
        (transferNonFlowSensitiveMemberCallExpr exampleMCE exampleME L) exampleMCE.id =
        some [NullabilityKind.Nullable, NullabilityKind.NonNull]) := by
  constructor
  · intro bn bt sp i hbt
    simp [classTemplateSubstHook, hbt]
  · refine ⟨[(exampleME, [NullabilityKind.Nullable, NullabilityKind.NonNull]),
      (exampleDRE, [NullabilityKind.Unspecified, NullabilityKind.NonNull])], ?_, ?_⟩
    · simp [transferNonFlowSensitiveDeclRefExpr, transferNonFlowSensitiveMemberExpr,
        computeNullability, insertExprNullabilityIfAbsent, lookupExprNullability,
        getNullabilityForChild, typeAnnotations, exprType, countPointersInExpr,
        substituteNullabilityAnnotationsInClassTemplate, getNullabilityAnnotationsFromType,
        classTemplateSubstHook, getRecordSpec, countPointersInDeclContext,
        countPointersInTypeArg, countPointersInType, unspecifiedNullability,
        walk, walkCtx, walkArgs, walkList, cwalk, cwalkCtx, cwalkArgs, cwalkList,
        sawNullability, noHook, Option.elim, exampleDRE, exampleME, exampleBaseTy,
        exampleMemberDeclTy, List.find?]
    · simp [transferNonFlowSensitiveMemberCallExpr, computeNullability,
        insertExprNullabilityIfAbsent, lookupExprNullability, getNullabilityForChild,
        countPointersInExpr, exprType, countPointersInType, unspecifiedNullability,
        cwalk, cwalkCtx, cwalkArgs, cwalkList, sawNullability, Option.elim,
        exampleME, exampleMCE, exampleCallTy, exampleDRE, exampleBaseTy,
        exampleMemberDeclTy, List.find?]

/-- Witness for the general hook equation of claim C4 at the example base. -/
theorem claim_C4_member_substitution_witness :
    classTemplateSubstHook [NullabilityKind.Unspecified, NullabilityKind.NonNull]
      exampleBaseTy ⟨0, 1, none, false⟩ = some [NullabilityKind.NonNull] := by
  have h := claim_C4_member_substitution.1
    [NullabilityKind.Unspecified, NullabilityKind.NonNull] exampleBaseTy
    ⟨0, none, [some (.ptr .prim), some (.ptr .prim)]⟩ 1
    (by simp [getRecordSpec, exampleBaseTy])
  simp only [h]
  simp [countPointersInDeclContext, cwalkCtx, countPointersInTypeArg,
    countPointersInType, cwalk]

/-- Claim C5: with a declaration-level nullability override `(nonnull,
nullable)`, the flow-sensitive transfer initializes the pointer value's null
state with `is_known = nonnull ∨ nullable` (and a fresh `is_null`) and adds
`nonnull ⇒ ¬is_null` to the flow condition; in the example
`int *target(int *p){ int *q = p; return q; }` with
`assign_nullability_variable(p) = (N, L)`, the returned pointer's
`(known, null)` satisfy `N ⇒ ¬null` and `(N ∨ L) ⇔ known`, while `N`, `L`,
`null` and `known` each remain individually unconstrained. -/
theorem claim_C5_override_binding :
    (∀ (ov : PointerTypeNullability) (env : Env),
      (transferFlowSensitivePointerOverride ov env).1.isKnown =
        BoolVal.or ov.Nonnull ov.Nullable ∧
      (transferFlowSensitivePointerOverride ov env).2.flowCondition =
        BoolVal.implies ov.Nonnull
            (BoolVal.not (transferFlowSensitivePointerOverride ov env).1.isNull) ::
          env.flowCondition) ∧
    (∀ v : Nat → Bool, satisfiesFlowCondition v exampleReturnEnv = true →
      evalBool v (.implies exampleOverride.Nonnull (.not exampleReturnState.isNull)) = true) ∧
    (∀ v : Nat → Bool,
      evalBool v (.iff (.or exampleOverride.Nonnull exampleOverride.Nullable)
        exampleReturnState.isKnown) = true) ∧
    ((∃ v, satisfiesFlowCondition v exampleReturnEnv = true ∧
        evalBool v exampleOverride.Nonnull = true) ∧
     (∃ v, satisfiesFlowCondition v exampleReturnEnv = true ∧
        evalBool v exampleOverride.Nonnull = false) ∧
     (∃ v, satisfiesFlowCondition v exampleReturnEnv = true ∧
        evalBool v exampleOverride.Nullable = true) ∧
     (∃ v, satisfiesFlowCondition v exampleReturnEnv = true ∧
        evalBool v exampleOverride.Nullable = false) ∧
     (∃ v, satisfiesFlowCondition v exampleReturnEnv = true ∧
        evalBool v exampleReturnState.isNull = true) ∧
     (∃ v, satisfiesFlowCondition v exampleReturnEnv = true ∧
        evalBool v exampleReturnState.isNull = false) ∧
     (∃ v, satisfiesFlowCondition v exampleReturnEnv = true ∧
        evalBool v exampleReturnState.isKnown = true) ∧
     (∃ v, satisfiesFlowCondition v exampleReturnEnv = true ∧
        evalBool v exampleReturnState.isKnown = false)) := by
  refine ⟨?_, ?_, ?_, ?_⟩
  · intro ov env
    constructor
    · rfl
    · rfl
  · intro v h
    simp only [exampleReturnEnv, transferFlowSensitivePointerOverride,
      initPointerNullState, makeAtomicBoolValue, addToFlowCondition,
      satisfiesFlowCondition, List.all_cons, Bool.and_eq_true] at h
    simpa [exampleOverride, exampleReturnState, exampleOverrideEnv, emptyEnv,
      assignNullabilityVariable, makeAtomicBoolValue,
      transferFlowSensitivePointerOverride, initPointerNullState] using h.1
  · intro v
    simp [exampleOverride, exampleReturnState, exampleOverrideEnv, emptyEnv,
      assignNullabilityVariable, makeAtomicBoolValue,
      transferFlowSensitivePointerOverride, initPointerNullState, evalBool]
  · refine ⟨⟨fun n => n == 0, by decide, by decide⟩,
      ⟨fun _ => false, by decide, by decide⟩,
      ⟨fun n => n == 1, by decide, by decide⟩,
      ⟨fun _ => false, by decide, by decide⟩,
      ⟨fun n => n == 2, by decide, by decide⟩,
      ⟨fun _ => false, by decide, by decide⟩,
      ⟨fun n => n == 1, by decide, by decide⟩,
      ⟨fun _ => false, by decide, by decide⟩⟩

/-- Witness for claim C5: the flow-condition implication instantiated at a
concrete satisfying assignment. -/
theorem claim_C5_override_binding_witness :
    evalBool (fun _ => false)
      (.implies exampleOverride.Nonnull (.not exampleReturnState.isNull)) = true :=
  claim_C5_override_binding.2.1 (fun _ => false) (by decide)

/-- Claim C6: for an equality or inequality comparison of two pointers with
null states `LHS`, `RHS`, exactly the three implications
`(LN ∧ RN) ⇒ eq`, `(LN ∧ ¬RN) ⇒ ne`, `(¬LN ∧ RN) ⇒ ne` are added to the flow
condition, where `eq` is the comparison boolean for `==` and its negation for
`!=`, `ne` is semantically `¬eq`, and two known-non-null pointers are left
unconstrained (the comparison boolean can still take either value). -/
theorem claim_C6_null_comparison :
    (∀ (isEQ : Bool) (cmp : BoolVal) (LHS RHS : PointerNullState) (env : Env),
      (transferFlowSensitiveNullCheckComparison isEQ cmp LHS RHS env).flowCondition =
        BoolVal.implies (.and (.not LHS.isNull) RHS.isNull)
            (if isEQ then BoolVal.not cmp else cmp) ::
          BoolVal.implies (.and LHS.isNull (.not RHS.isNull))
            (if isEQ then BoolVal.not cmp else cmp) ::
          BoolVal.implies (.and LHS.isNull RHS.isNull)
            (if isEQ then cmp else BoolVal.not cmp) ::
          env.flowCondition) ∧
    (∀ (isEQ : Bool) (cmp : BoolVal) (v : Nat → Bool),
      evalBool v (if isEQ then BoolVal.not cmp else cmp) =
        !(evalBool v (if isEQ then cmp else BoolVal.not cmp))) ∧
    ((∃ v : Nat → Bool,
        satisfiesFlowCondition v
          (transferFlowSensitiveNullCheckComparison true (.atom 2)
            ⟨.atom 10, .atom 0⟩ ⟨.atom 11, .atom 1⟩ emptyEnv) = true ∧
        evalBool v (.atom 0) = false ∧ evalBool v (.atom 1) = false ∧
        evalBool v (.atom 2) = true) ∧
     (∃ v : Nat → Bool,
        satisfiesFlowCondition v
          (transferFlowSensitiveNullCheckComparison true (.atom 2)
            ⟨.atom 10, .atom 0⟩ ⟨.atom 11, .atom 1⟩ emptyEnv) = true ∧
        evalBool v (.atom 0) = false ∧ evalBool v (.atom 1) = false ∧
        evalBool v (.atom 2) = false)) := by
  refine ⟨?_, ?_, ?_, ?_⟩
  · intro isEQ cmp LHS RHS env
    cases isEQ <;> rfl
  · intro isEQ cmp v
    cases isEQ <;> simp [evalBool]
  · exact ⟨fun n => n == 2, by decide, by decide, by decide, by decide⟩
  · exact ⟨fun _ => false, by decide, by decide, by decide, by decide⟩

end Crubit
